import Mathlib

/-
Verification of the docker-image-builder repository against its
natural-language specification.

The embedding translates `docker_image_builder/dockertools.py` and
`docker_image_builder/api.py` into Lean definitions:

* bytes are modelled as `Nat` values (0..255; `10` is LF, `13` is CR,
  `32` is a space);
* the module-level mutable globals of `api.py` (`container`,
  `buildtime_volumes`, `_workdir`, `_cmd`, `_entrypoint`, `_user`,
  `_expose`, `_volumes`) become the fields of an explicit `BuilderState`
  record threaded through every operation;
* Python exceptions become `Except String` results (each operation
  raises before mutating anything, so an `error` result leaves the
  caller's state untouched, exactly as in the source);
* calls into the external docker daemon are modelled by their inputs
  (e.g. `commit` returns the repository/tag/changes passed to the
  remote commit call) and by parameters standing for remote results
  (e.g. the exit status handed back by `exec_inspect`).

The host platform is modelled as POSIX (`os.name == 'posix'`,
`os.sep == '/'`).
-/

set_option autoImplicit false

deriving instance DecidableEq for Except

namespace ImageBuilder

/-! ## Exec output streaming (`dockertools.ContainerExec.communicate`)

`communicate(line_prefix)` iterates over the chunks of the remote output
stream.  For each non-empty chunk it runs a `while offset < len(data)`
loop: every iteration writes `line_prefix`, then the slice of the chunk
up to and including the next `\n` (or the whole remainder when the chunk
contains no further `\n`).  -/

/-- The slice `data[offset:nl+1]` taken by one loop iteration of
`communicate`: the bytes up to and including the first LF, or the whole
list when it contains no LF. -/
def takeLine : List Nat → List Nat
  | [] => []
  | b :: rest => if b = 10 then [10] else b :: takeLine rest

/-- The remainder of the chunk after one loop iteration of
`communicate`: everything after the first LF, or `[]` when the list
contains no LF. -/
def dropLine : List Nat → List Nat
  | [] => []
  | b :: rest => if b = 10 then rest else dropLine rest

/-- The `while offset < len(data)` loop of `communicate` on one chunk
`data`: each iteration emits the line prefix `lp` followed by the slice
up to and including the next LF (or the chunk's remainder). -/
def writeChunk (lp : List Nat) (data : List Nat) : List Nat :=
  if h : data = [] then []
  else lp ++ takeLine data ++ writeChunk lp (dropLine data)
termination_by data.length
decreasing_by
  have key : ∀ l : List Nat, l ≠ [] → (dropLine l).length < l.length := by
    intro l hl
    induction l with
    | nil => exact absurd rfl hl
    | cons b rest ih =>
      simp only [dropLine]
      by_cases hb : b = 10
      · simp [hb]
      · simp only [if_neg hb]
        cases rest with
        | nil => simp [dropLine]
        | cons c r => exact Nat.lt_trans (ih (by simp)) (by simp)
  exact key data h

/-- `ContainerExec.communicate(line_prefix)`: the bytes written to local
stdout while draining the output stream `chunks` (empty chunks are
skipped by `if not data: continue`, which is harmless since
`writeChunk lp [] = []`). -/
def communicate (lp : List Nat) (chunks : List (List Nat)) : List Nat :=
  (chunks.map (writeChunk lp)).flatten

/-! ### The spec-side description of drain output

The specification describes the drained output as the source stream
with the given prefix inserted once before every line, a line ending at
each `\n`, with a trailing unterminated partial line also prefixed
once.  `specLines` splits a byte stream into that list of lines
(each line keeps its terminating LF; the final entry may lack one), and
`claimedOutput` is the spec's claimed output. -/

/-- Split a byte stream into lines: each line ends at (and keeps) an
LF, and a trailing run of bytes with no LF forms a final partial line. -/
def specLines : List Nat → List (List Nat)
  | [] => []
  | b :: rest =>
    if b = 10 then [10] :: specLines rest
    else
      match specLines rest with
      | [] => [[b]]
      | h :: t => (b :: h) :: t

/-- The output claimed by the spec: the stream's lines, each preceded by
one copy of the prefix. -/
def claimedOutput (lp stream : List Nat) : List Nat :=
  ((specLines stream).map (lp ++ ·)).flatten

/-! ## Python `json.dumps` on strings and lists of strings

`commit()` renders `CMD`/`ENTRYPOINT` via `json.dumps(list_of_str)` and
`WORKDIR` via `json.dumps(str)`.  The encoder below reproduces CPython's
`json.encoder.py_encode_basestring_ascii` (the default
`ensure_ascii=True` mode) and the default `", "` item separator. -/

/-- One lowercase hexadecimal digit, as produced by `'\u%04x' % n`. -/
def hexDigit (n : Nat) : Char :=
  if n < 10 then Char.ofNat (48 + n) else Char.ofNat (87 + n)

/-- Four lowercase hex digits (`'%04x' % n` for `n < 0x10000`). -/
def hex4 (n : Nat) : String :=
  ⟨[hexDigit (n / 4096 % 16), hexDigit (n / 256 % 16),
    hexDigit (n / 16 % 16), hexDigit (n % 16)]⟩

/-- Encoding of one character inside a JSON string literal, following
CPython's ASCII-only JSON encoder: the seven two-character escapes, then
Unicode escapes for the remaining control characters and for every
character above U+007E (astral characters become surrogate pairs). -/
def jsonEscapeChar (c : Char) : String :=
  let n := c.toNat
  if c = '\\' then "\\\\"
  else if c = '"' then "\\\""
  else if n = 8 then "\\b"
  else if n = 9 then "\\t"
  else if n = 10 then "\\n"
  else if n = 12 then "\\f"
  else if n = 13 then "\\r"
  else if n < 32 then "\\u" ++ hex4 n
  else if n < 127 then ⟨[c]⟩
  else if n ≤ 65535 then "\\u" ++ hex4 n
  else "\\u" ++ hex4 (55296 + (n - 65536) / 1024) ++
       "\\u" ++ hex4 (56320 + (n - 65536) % 1024)

/-- `json.dumps` of a Python `str`. -/
def jsonDumpsStr (s : String) : String :=
  "\"" ++ String.join (s.data.map jsonEscapeChar) ++ "\""

/-- `json.dumps` of a Python list of strings (default `", "` separator). -/
def jsonDumpsList (l : List String) : String :=
  "[" ++ String.intercalate ", " (l.map jsonDumpsStr) ++ "]"

/-! ## POSIX path helpers

`buildtime_volume()` uses `nr.path` (`sep`/`isabs`/`curdir`/`pardir`/
`abs`, thin wrappers over `os.path` constants and functions) and
`copy()` uses `posixpath.join`/`posixpath.normpath`.  The host is
modelled as POSIX, so both reduce to the `posixpath` algorithms below,
transcribed from CPython's `posixpath.py`.  `posixAbs` takes the
process working directory as an explicit `cwd` argument. -/

/-- Python `s.startswith(p)`. -/
def pyStartsWith (s p : String) : Bool :=
  p.data.isPrefixOf s.data

/-- Python `s.endswith(p)`. -/
def pyEndsWith (s p : String) : Bool :=
  p.data.isSuffixOf s.data

/-- Python `c in s` for a single character. -/
def containsChar (s : String) (c : Char) : Bool :=
  s.data.contains c

/-- `posixpath.isabs`: the path begins with `'/'`. -/
def posixIsAbs (s : String) : Bool :=
  pyStartsWith s "/"

/-- Python `str.split('/')` (on the character list). -/
def splitOnSlash : List Char → List (List Char)
  | [] => [[]]
  | c :: cs =>
    if c = '/' then [] :: splitOnSlash cs
    else
      match splitOnSlash cs with
      | [] => [[c]]
      | h :: t => (c :: h) :: t

/-- Python `'/'.join(comps)` (on character lists). -/
def joinSlash : List (List Char) → List Char
  | [] => []
  | [x] => x
  | x :: xs => x ++ '/' :: joinSlash xs

/-- The component-filtering loop of `posixpath.normpath`: drops empty
and `'.'` components and resolves `'..'` components against the
accumulated prefix exactly as CPython does. -/
def normComps (initialSlashes : Nat) (comps : List (List Char)) : List (List Char) :=
  comps.foldl
    (fun acc comp =>
      if comp = [] ∨ comp = ['.'] then acc
      else if comp ≠ ['.', '.'] ∨ (initialSlashes = 0 ∧ acc = []) ∨
          (acc ≠ [] ∧ acc.getLast? = some ['.', '.']) then acc ++ [comp]
      else if acc ≠ [] then acc.dropLast
      else acc)
    []

/-- The number of leading slashes `posixpath.normpath` preserves: 0 for
relative paths, 2 for paths starting with exactly two slashes, else 1. -/
def initialSlashesOf (p : String) : Nat :=
  if pyStartsWith p "/" then
    (if pyStartsWith p "//" && !(pyStartsWith p "///") then 2 else 1)
  else 0

/-- `posixpath.normpath`. -/
def posixNormpath (p : String) : String :=
  if p = "" then "."
  else
    match List.replicate (initialSlashesOf p) '/' ++
        joinSlash (normComps (initialSlashesOf p) (splitOnSlash p.data)) with
    | [] => "."
    | res => ⟨res⟩

/-- `posixpath.join` for two components. -/
def posixJoin (a b : String) : String :=
  if pyStartsWith b "/" then b
  else if a = "" ∨ pyEndsWith a "/" then a ++ b
  else a ++ "/" ++ b

/-- `posixpath.abspath` with the working directory passed explicitly:
`normpath(join(cwd, p))` (`join` returns `p` itself when `p` is already
absolute). -/
def posixAbs (cwd p : String) : String :=
  posixNormpath (posixJoin cwd p)

/-! ## The module-level state of `api.py`

`api.py` keeps its state in module-level globals.  `BuilderState`
gathers them into a record; every operation takes the state explicitly
and returns either an error (a raised exception) or the updated state.
Field names follow the source globals. -/

/-- A value of the `buildtime_volumes` dict:
`{'bind': container_path, 'mode': mode}`. -/
structure BindSpec where
  bind : String
  mode : String
deriving DecidableEq

/-- The module-level globals of `api.py`.  `container` holds the
runtime-assigned handle of the active container (Python: a container
object or `None`); `buildtime_volumes` is an insertion-ordered dict. -/
structure BuilderState where
  container : Option String
  buildtime_volumes : List (String × BindSpec)
  _workdir : Option String
  _cmd : Option (List String)
  _entrypoint : Option (List String)
  _user : Option String
  _expose : List String
  _volumes : List String
deriving DecidableEq

/-- The initial module state: no container, every declared field
empty. -/
def freshState : BuilderState :=
  { container := none, buildtime_volumes := [], _workdir := none,
    _cmd := none, _entrypoint := none, _user := none, _expose := [],
    _volumes := [] }

/-- A state with an open session on container `h` and all declared
metadata fields fresh. -/
def openState (h : String) : BuilderState :=
  { freshState with container := some h }

/-- Python dict assignment `d[k] = v`: updates the value in place when
the key exists, otherwise appends a new entry (insertion order). -/
def pyDictSet (d : List (String × BindSpec)) (k : String) (v : BindSpec) :
    List (String × BindSpec) :=
  if d.any (fun kv => kv.1 = k) then
    d.map (fun kv => if kv.1 = k then (k, v) else kv)
  else d ++ [(k, v)]

/-- A command argument as accepted by `run`/`cmd`/`entrypoint`: either a
shell string or an explicit argument vector. -/
inductive PyCmd where
  | str (s : String)
  | argv (args : List String)
deriving DecidableEq

/-- The `isinstance(cmd, str)` wrapping: a shell string becomes
`['bash', '-c', cmd]`, a list is used as given. -/
def toArgv : PyCmd → List String
  | .str s => ["bash", "-c", s]
  | .argv a => a

/-- The observable fate of the script process after `run`: either
control returns normally, or `error()` printed a message to stderr and
called `sys.exit(code)`. -/
inductive RunOutcome where
  | normal
  | exit (code : Int) (stderrMsg : String)
deriving DecidableEq

/-- `error(message, code=1)`: print `message` to stderr and terminate
the process with exit status `code`. -/
def error (message : String) (code : Int) : RunOutcome :=
  RunOutcome.exit code message

/-! ## Session lifecycle (`new`) -/

/-- Entering the `new(image, ...)` context manager up to the `yield`:
raises when a session is already open (before touching any state),
otherwise records the runtime-assigned container `handle`. -/
def new_enter (handle : String) (image : String) (s : BuilderState) :
    Except String BuilderState :=
  if s.container.isSome then Except.error "new() can not be nested"
  else Except.ok { s with container := some handle }

/-- The `finally` block of `new()`: kills the container (best effort,
not part of the state) and resets `container`, `_workdir`, `_cmd`,
`_entrypoint`, `_user` and `_expose`.  The source's `global` statement
does not list `_volumes`, so declared volumes survive the session. -/
def new_exit (s : BuilderState) : BuilderState :=
  { s with
    container := none
    _workdir := none
    _cmd := none
    _entrypoint := none
    _user := none
    _expose := [] }

/-! ## Command execution (`run`) -/

/-- `run(cmd)`: raises without an open session; otherwise executes the
command remotely (the remote exit status is the parameter `res`,
obtained by draining the exec stream) and, when `res != 0`, calls
`error('ERROR exit code {!r}'.format(res))`, terminating the process
with the default code 1. -/
def run (c : PyCmd) (res : Int) (s : BuilderState) : Except String RunOutcome :=
  if s.container = none then Except.error "no current container"
  else Except.ok
    (if res ≠ 0 then error ("ERROR exit code " ++ toString res) 1
     else RunOutcome.normal)

/-! ## Buildtime volumes (`buildtime_volume`) -/

/-- `buildtime_volume(host_path, container_path, mode='rw')`: only
callable outside a session.  On POSIX, `seps == ['/']`; a relative host
path is replaced by `path.abs(host_path)` only when it starts with
`os.curdir` (`'.'`) or `os.pardir` (`'..'`) or contains a separator.
The result keys the `buildtime_volumes` dict. -/
def buildtime_volume (cwd : String) (host_path container_path mode : String)
    (s : BuilderState) : Except String BuilderState :=
  if s.container.isSome then
    Except.error "buildtime_volume() can not be used from inside a build context"
  else
    let hp :=
      if ¬ posixIsAbs host_path = true ∧
          (pyStartsWith host_path "." = true ∨ pyStartsWith host_path ".." = true ∨
           containsChar host_path '/' = true)
      then posixAbs cwd host_path
      else host_path
    Except.ok { s with
      buildtime_volumes := pyDictSet s.buildtime_volumes hp ⟨container_path, mode⟩ }

/-! ## Metadata mutations (`workdir`, `cmd`, `entrypoint`, `user`,
`expose`, `volume`) -/

/-- `workdir(path)`: requires an open session; sets `_workdir`. -/
def workdir (p : String) (s : BuilderState) : Except String BuilderState :=
  if s.container = none then
    Except.error "workdir() can not be used outside of a build context"
  else Except.ok { s with _workdir := some p }

/-- `cmd(cmd)`: requires an open session; wraps a shell string in
`['bash', '-c', ...]` and sets `_cmd`. -/
def cmd (c : PyCmd) (s : BuilderState) : Except String BuilderState :=
  if s.container = none then
    Except.error "cmd() can not be used outside of a build context"
  else Except.ok { s with _cmd := some (toArgv c) }

/-- `entrypoint(cmd)`: requires an open session; wraps a shell string in
`['bash', '-c', ...]` and sets `_entrypoint`. -/
def entrypoint (c : PyCmd) (s : BuilderState) : Except String BuilderState :=
  if s.container = none then
    Except.error "entrypoint() can not be used outside of a build context"
  else Except.ok { s with _entrypoint := some (toArgv c) }

/-- The string stored by `user(name, group)`: `'name:group'` when
`group` is truthy (not `None` and not empty), else `name`. -/
def userString (name : String) (group : Option String) : String :=
  match group with
  | some g => if g ≠ "" then name ++ ":" ++ g else name
  | none => name

/-- `user(name, group=None)`: requires an open session; sets `_user`. -/
def user (name : String) (group : Option String) (s : BuilderState) :
    Except String BuilderState :=
  if s.container = none then
    Except.error "user() can not be used outside of a build context"
  else Except.ok { s with _user := some (userString name group) }

/-- `expose(decl)`: requires an open session; appends to `_expose`. -/
def expose (decl : String) (s : BuilderState) : Except String BuilderState :=
  if s.container = none then
    Except.error "expose() can not be used outside of a build context"
  else Except.ok { s with _expose := s._expose ++ [decl] }

/-- `volume(decl)`: requires an open session; appends to `_volumes`.
(The source raises with the message of `expose()` — a copy-paste slip
kept here verbatim.) -/
def volume (decl : String) (s : BuilderState) : Except String BuilderState :=
  if s.container = none then
    Except.error "expose() can not be used outside of a build context"
  else Except.ok { s with _volumes := s._volumes ++ [decl] }

/-! ## Commit (`commit`) -/

/-- Python `repository.partition(':')` restricted to the first and last
component, on the character list: the part before the first `':'` and,
when a `':'` exists, the part after it. -/
def partitionColon : List Char → List Char × Option (List Char)
  | [] => ([], none)
  | c :: rest =>
    if c = ':' then ([], some rest)
    else
      match partitionColon rest with
      | (a, b) => (c :: a, b)

/-- `repository.partition(':')[::2]` as a pair of strings (the second
component is `''` when there is no colon, exactly as in Python). -/
def pyPartition2 (s : String) : String × String :=
  match partitionColon s.data with
  | (a, some b) => (⟨a⟩, ⟨b⟩)
  | (a, none) => (⟨a⟩, "")

/-- Python truthiness of an optional string argument: `None` and `''`
are falsy. -/
def pyTruthy : Option String → Bool
  | some t => t ≠ ""
  | none => false

/-- The repository/tag validation of `commit()` (lines 244-252): when
`repository` is truthy it is split at the first `':'`; a tag without a
repository name and a tag given both ways are `ValueError`s; otherwise
the embedded tag (possibly empty) replaces the `tag` argument.  A falsy
`repository` discards both arguments. -/
def commit_parse (repository tag : Option String) :
    Except String (Option String × Option String) :=
  match repository with
  | some r =>
    if r ≠ "" then
      match pyPartition2 r with
      | (name, implicit_tag) =>
        if implicit_tag ≠ "" ∧ name = "" then
          Except.error "tag without repository"
        else if pyTruthy tag = true ∧ implicit_tag ≠ "" then
          Except.error "tag in repository and tag argument"
        else Except.ok (some name, some implicit_tag)
    else Except.ok (none, none)
  | none => Except.ok (none, none)

/-- The change-directive list built by `commit()` (lines 254-266): one
`CMD`/`ENTRYPOINT`/`USER`/`WORKDIR` line per field that `is not None`,
then one `EXPOSE` line per declared port and one `VOLUME` line per
declared volume, in declaration order. -/
def commit_changes (s : BuilderState) : List String :=
  (match s._cmd with
   | some c => ["CMD " ++ jsonDumpsList c]
   | none => []) ++
  (match s._entrypoint with
   | some c => ["ENTRYPOINT " ++ jsonDumpsList c]
   | none => []) ++
  (match s._user with
   | some u => ["USER " ++ u]
   | none => []) ++
  (match s._workdir with
   | some w => ["WORKDIR " ++ jsonDumpsStr w]
   | none => []) ++
  s._expose.map (fun port => "EXPOSE " ++ port) ++
  s._volumes.map (fun vol => "VOLUME " ++ vol)

/-- The arguments `commit()` hands to the remote
`container.commit(...)` call (author/message/conf are passed through
unchanged and omitted here). -/
structure CommitCall where
  repository : Option String
  tag : Option String
  changes : List String
deriving DecidableEq

/-- `commit(repository=None, tag=None, ...)`: requires an open session;
validates the repository/tag combination and issues the remote commit
with the accumulated change directives. -/
def commit (repository tag : Option String) (s : BuilderState) :
    Except String CommitCall :=
  if s.container = none then
    Except.error "commit() can not be used outside of a build context"
  else
    match commit_parse repository tag with
    | Except.error e => Except.error e
    | Except.ok (r, t) => Except.ok ⟨r, t, commit_changes s⟩

/-! ## File injection (`copy`) -/

/-- Python `content.replace(b'\r\n', b'\n')`: left-to-right,
non-overlapping replacement of every CR LF pair by LF. -/
def pyReplaceCRLF : List Nat → List Nat
  | [] => []
  | 13 :: 10 :: rest => 10 :: pyReplaceCRLF rest
  | b :: rest => b :: pyReplaceCRLF rest

/-- The local source of a `copy()` call: its path, whether
`path.isfile` holds, and its bytes (meaningful for regular files). -/
structure SrcFile where
  path : String
  isfile : Bool
  content : List Nat
deriving DecidableEq

/-- What `copy()` hands to `container.put_archive(dst, ...)`: the
resolved destination and, for the `crlf_to_lf` branch, the content of
the single synthesized archive entry (`none` for the `tar.add`
directory-snapshot branch). -/
structure PutArchiveCall where
  dst : String
  entryContent : Option (List Nat)
deriving DecidableEq

/-- The archive entry synthesized inside the `with tarfile.open(...)`
block: raises when CRLF normalization is requested for a non-regular
file, otherwise normalizes the bytes (the `tar.add` branch snapshots
the tree unchanged, modelled as `none`). -/
def copyArchiveEntry (src : SrcFile) (crlf_to_lf : Bool) :
    Except String (Option (List Nat)) :=
  if crlf_to_lf ∧ ¬ src.isfile = true then
    Except.error ("crlf_to_lf=True, but \"" ++ src.path ++ "\" is not a file")
  else if crlf_to_lf then Except.ok (some (pyReplaceCRLF src.content))
  else Except.ok none

/-- `copy(src, dst, crlf_to_lf=False)`: resolves `dst` against a truthy
`_workdir` via `posixpath.normpath(posixpath.join(...))`, builds the
in-memory archive (raising before any upload when normalization is
requested for a non-file), then uploads; a falsy `put_archive` result
(parameter `putArchiveOk`) raises. -/
def copy (src : SrcFile) (dst : String) (crlf_to_lf : Bool)
    (putArchiveOk : Bool) (s : BuilderState) : Except String PutArchiveCall :=
  let dst' :=
    match s._workdir with
    | some w => if w ≠ "" then posixNormpath (posixJoin w dst) else dst
    | none => dst
  match copyArchiveEntry src crlf_to_lf with
  | Except.error e => Except.error e
  | Except.ok entry =>
    if putArchiveOk then Except.ok ⟨dst', entry⟩
    else Except.error "put_archive() failed"

/-! ## Sequences of metadata mutations

To state quantified properties about "every sequence of metadata
mutations inside an open session" we reify the six mutating calls as a
syntax type and interpret them with the operations above. -/

/-- One metadata mutation call. -/
inductive Mutation where
  | workdir (p : String)
  | cmd (c : PyCmd)
  | entrypoint (c : PyCmd)
  | user (name : String) (group : Option String)
  | expose (d : String)
  | volume (d : String)
deriving DecidableEq

/-- Interpret one mutation as the corresponding `api.py` call. -/
def mutate (m : Mutation) (s : BuilderState) : Except String BuilderState :=
  match m with
  | .workdir p => workdir p s
  | .cmd c => cmd c s
  | .entrypoint c => entrypoint c s
  | .user n g => user n g s
  | .expose d => expose d s
  | .volume d => volume d s

/-- Apply one mutation; a raised exception leaves the module state
unchanged (as in Python, where the raise precedes every assignment). -/
def applyM (s : BuilderState) (m : Mutation) : BuilderState :=
  match mutate m s with
  | Except.ok s' => s'
  | Except.error _ => s

/-- Apply a sequence of mutations in order. -/
def applyMutations (ms : List Mutation) (s : BuilderState) : BuilderState :=
  ms.foldl applyM s

/-- `ovr a b`: the value of a scalar field after applying mutations
that produce declaration `a` on top of a prior value `b` (the last
declaration wins; absent a new declaration the prior value stands). -/
def ovr {α : Type} (a b : Option α) : Option α :=
  match a with
  | some x => some x
  | none => b

/-- The workdir declared by a mutation sequence (last `workdir` call
wins), if any. -/
def declaredWorkdir : List Mutation → Option String
  | [] => none
  | Mutation.workdir p :: ms => some ((declaredWorkdir ms).getD p)
  | _ :: ms => declaredWorkdir ms

/-- The command declared by a mutation sequence (last `cmd` call wins,
after `['bash', '-c', ...]` wrapping), if any. -/
def declaredCmd : List Mutation → Option (List String)
  | [] => none
  | Mutation.cmd c :: ms => some ((declaredCmd ms).getD (toArgv c))
  | _ :: ms => declaredCmd ms

/-- The entrypoint declared by a mutation sequence, if any. -/
def declaredEntrypoint : List Mutation → Option (List String)
  | [] => none
  | Mutation.entrypoint c :: ms => some ((declaredEntrypoint ms).getD (toArgv c))
  | _ :: ms => declaredEntrypoint ms

/-- The user declared by a mutation sequence (`name[:group]`), if any. -/
def declaredUser : List Mutation → Option String
  | [] => none
  | Mutation.user n g :: ms => some ((declaredUser ms).getD (userString n g))
  | _ :: ms => declaredUser ms

/-- Every port declaration of the sequence, in declaration order. -/
def exposedOf (ms : List Mutation) : List String :=
  ms.filterMap (fun m => match m with | Mutation.expose d => some d | _ => none)

/-- Every volume declaration of the sequence, in declaration order. -/
def volumesOf (ms : List Mutation) : List String :=
  ms.filterMap (fun m => match m with | Mutation.volume d => some d | _ => none)

/-- The change directives a mutation sequence gives rise to, described
directly on the sequence: one directive per scalar field that the
sequence declares (regardless of the declared value), plus `EXPOSE` and
`VOLUME` lines in declaration order. -/
def specChangesOf (ms : List Mutation) : List String :=
  (match declaredCmd ms with
   | some c => ["CMD " ++ jsonDumpsList c]
   | none => []) ++
  (match declaredEntrypoint ms with
   | some c => ["ENTRYPOINT " ++ jsonDumpsList c]
   | none => []) ++
  (match declaredUser ms with
   | some u => ["USER " ++ u]
   | none => []) ++
  (match declaredWorkdir ms with
   | some w => ["WORKDIR " ++ jsonDumpsStr w]
   | none => []) ++
  (exposedOf ms).map (fun port => "EXPOSE " ++ port) ++
  (volumesOf ms).map (fun vol => "VOLUME " ++ vol)

/-- The directive list claimed by the spec sentence: one directive per
scalar field that is currently *non-empty* (an empty argument vector,
empty user string or empty workdir produces no directive), plus
`EXPOSE`/`VOLUME` lines in declaration order. -/
def specNonEmptyChanges (s : BuilderState) : List String :=
  (match s._cmd with
   | some c => if c ≠ [] then ["CMD " ++ jsonDumpsList c] else []
   | none => []) ++
  (match s._entrypoint with
   | some c => if c ≠ [] then ["ENTRYPOINT " ++ jsonDumpsList c] else []
   | none => []) ++
  (match s._user with
   | some u => if u ≠ "" then ["USER " ++ u] else []
   | none => []) ++
  (match s._workdir with
   | some w => if w ≠ "" then ["WORKDIR " ++ jsonDumpsStr w] else []
   | none => []) ++
  s._expose.map (fun port => "EXPOSE " ++ port) ++
  s._volumes.map (fun vol => "VOLUME " ++ vol)

/-- Every CR in the byte list is immediately followed by an LF, i.e.
every line ending is either LF or CRLF (no lone carriage returns); this
is the shape of a file "mixing LF and CRLF line endings". -/
def noLoneCR : List Nat → Bool
  | [] => true
  | [b] => b ≠ 13
  | b :: c :: rest => (b ≠ 13 ∨ c = 10 : Bool) && noLoneCR (c :: rest)

/-! ## Supporting lemmas -/

theorem dropLine_length : ∀ l : List Nat, l ≠ [] → (dropLine l).length < l.length := by
  intro l h
  induction l with
  | nil => exact absurd rfl h
  | cons b rest ih =>
    simp only [dropLine]
    by_cases hb : b = 10
    · simp [hb]
    · simp only [if_neg hb]
      cases rest with
      | nil => simp [dropLine]
      | cons c r =>
        exact Nat.lt_trans (ih (by simp)) (by simp)

theorem specLines_cons_lf (rest : List Nat) :
    specLines (10 :: rest) = [10] :: specLines rest := by
  simp [specLines]

theorem specLines_cons_of_nil (b : Nat) (rest : List Nat) (hb : b ≠ 10)
    (h : specLines rest = []) : specLines (b :: rest) = [[b]] := by
  simp [specLines, hb, h]

theorem specLines_cons_of_cons (b : Nat) (rest : List Nat) (h1 : List Nat)
    (t1 : List (List Nat)) (hb : b ≠ 10) (h : specLines rest = h1 :: t1) :
    specLines (b :: rest) = (b :: h1) :: t1 := by
  simp [specLines, hb, h]

theorem specLines_ne_nil (l : List Nat) (h : l ≠ []) : specLines l ≠ [] := by
  cases l with
  | nil => exact absurd rfl h
  | cons b rest =>
    by_cases hb : b = 10
    · subst hb
      rw [specLines_cons_lf]
      simp
    · cases hr : specLines rest with
      | nil => rw [specLines_cons_of_nil b rest hb hr]; simp
      | cons x y => rw [specLines_cons_of_cons b rest x y hb hr]; simp

theorem specLines_eq_takeLine_dropLine (l : List Nat) (h : l ≠ []) :
    specLines l = takeLine l :: specLines (dropLine l) := by
  induction l with
  | nil => exact absurd rfl h
  | cons b rest ih =>
    by_cases hb : b = 10
    · subst hb
      rw [specLines_cons_lf]
      simp [takeLine, dropLine]
    · have htake : takeLine (b :: rest) = b :: takeLine rest := by
        simp [takeLine, hb]
      have hdrop : dropLine (b :: rest) = dropLine rest := by
        simp [dropLine, hb]
      by_cases hrn : rest = []
      · subst hrn
        rw [specLines_cons_of_nil b [] hb rfl, htake, hdrop]
        simp [takeLine, dropLine, specLines]
      · rw [specLines_cons_of_cons b rest (takeLine rest)
          (specLines (dropLine rest)) hb (ih hrn), htake, hdrop]

theorem writeChunk_eq_claimedOutput (lp : List Nat) (l : List Nat) :
    writeChunk lp l = claimedOutput lp l := by
  suffices H : ∀ (n : Nat) (x : List Nat), x.length ≤ n →
      writeChunk lp x = claimedOutput lp x from H l.length l le_rfl
  intro n
  induction n with
  | zero =>
    intro x hx
    have : x = [] := by
      cases x with
      | nil => rfl
      | cons a y => simp at hx
    subst this
    rw [writeChunk]
    simp [claimedOutput, specLines]
  | succ n ih =>
    intro x hx
    by_cases hxn : x = []
    · subst hxn
      rw [writeChunk]
      simp [claimedOutput, specLines]
    · rw [writeChunk]
      rw [dif_neg hxn]
      have hlt : (dropLine x).length ≤ n :=
        Nat.lt_succ_iff.mp (Nat.lt_of_lt_of_le (dropLine_length x hxn) hx)
      rw [ih (dropLine x) hlt]
      rw [claimedOutput, claimedOutput, specLines_eq_takeLine_dropLine x hxn]
      simp [List.append_assoc]

theorem specLines_append (a b : List Nat) (ha : a.getLast? = some 10) :
    specLines (a ++ b) = specLines a ++ specLines b := by
  induction a with
  | nil => simp at ha
  | cons c rest ih =>
    by_cases hrn : rest = []
    · subst hrn
      have hc : c = 10 := by simpa using ha
      subst hc
      rw [List.cons_append, List.nil_append, specLines_cons_lf, specLines_cons_lf]
      simp [specLines]
    · have ha' : rest.getLast? = some 10 := by
        obtain ⟨c2, r2, hr⟩ : ∃ c2 r2, rest = c2 :: r2 := by
          cases rest with
          | nil => exact absurd rfl hrn
          | cons x y => exact ⟨x, y, rfl⟩
        subst hr
        simpa [List.getLast?_cons_cons] using ha
      by_cases hc : c = 10
      · subst hc
        rw [List.cons_append, specLines_cons_lf, specLines_cons_lf, ih ha']
        simp
      · obtain ⟨h1, t1, hst⟩ : ∃ h1 t1, specLines rest = h1 :: t1 := by
          cases hs : specLines rest with
          | nil => exact absurd hs (specLines_ne_nil rest hrn)
          | cons x y => exact ⟨x, y, rfl⟩
        have hab : specLines (rest ++ b) = h1 :: (t1 ++ specLines b) := by
          rw [ih ha', hst]
          simp
        rw [List.cons_append,
          specLines_cons_of_cons c (rest ++ b) h1 (t1 ++ specLines b) hc hab,
          specLines_cons_of_cons c rest h1 t1 hc hst]
        simp

theorem claimedOutput_flatten (lp : List Nat) (chunks : List (List Nat))
    (h : ∀ c ∈ chunks.dropLast, c ≠ [] → c.getLast? = some 10) :
    claimedOutput lp chunks.flatten = (chunks.map (claimedOutput lp)).flatten := by
  induction chunks with
  | nil => simp [claimedOutput, specLines]
  | cons c cs ih =>
    by_cases hcsn : cs = []
    · subst hcsn
      simp [claimedOutput]
    · obtain ⟨c2, cs2, hcs⟩ : ∃ c2 cs2, cs = c2 :: cs2 := by
        cases cs with
        | nil => exact absurd rfl hcsn
        | cons x y => exact ⟨x, y, rfl⟩
      have hdl : (c :: cs).dropLast = c :: cs.dropLast := by
        subst hcs
        rfl
      have hmem : ∀ x ∈ cs.dropLast, x ≠ [] → x.getLast? = some 10 := by
        intro x hx
        apply h
        rw [hdl]
        exact List.mem_cons_of_mem _ hx
      by_cases hcnil : c = []
      · subst hcnil
        simpa using ih hmem
      · have hlast : c.getLast? = some 10 := by
          apply h c _ hcnil
          rw [hdl]
          exact List.mem_cons_self _ _
        rw [List.flatten_cons, claimedOutput, specLines_append c cs.flatten hlast]
        rw [List.map_cons, List.flatten_cons]
        rw [← ih hmem]
        simp [claimedOutput]

theorem pyStartsWith_slash_iff (s : String) :
    pyStartsWith s "/" = true ↔ ∃ t, s.data = '/' :: t := by
  constructor
  · intro h
    cases hs : s.data with
    | nil =>
      rw [pyStartsWith, hs] at h
      simp [List.isPrefixOf] at h
    | cons c t =>
      rw [pyStartsWith, hs] at h
      simp [List.isPrefixOf] at h
      exact ⟨t, by simp [hs, ← h]⟩
  · rintro ⟨t, ht⟩
    rw [pyStartsWith, ht]
    simp [List.isPrefixOf_iff_prefix]

theorem pyStartsWith_slash_append (a b : String) (h : pyStartsWith a "/" = true) :
    pyStartsWith (a ++ b) "/" = true := by
  obtain ⟨t, ht⟩ := (pyStartsWith_slash_iff a).mp h
  apply (pyStartsWith_slash_iff (a ++ b)).mpr
  refine ⟨t ++ b.data, ?_⟩
  have : (a ++ b).data = a.data ++ b.data := rfl
  rw [this, ht]
  rfl

theorem posixNormpath_isAbs (p : String) (h : pyStartsWith p "/" = true) :
    posixIsAbs (posixNormpath p) = true := by
  have hne : p ≠ "" := by
    intro hp
    subst hp
    simp [pyStartsWith, List.isPrefixOf] at h
  rw [posixNormpath, if_neg hne]
  have hk : initialSlashesOf p = 2 ∨ initialSlashesOf p = 1 := by
    rw [initialSlashesOf, if_pos h]
    by_cases h2 : (pyStartsWith p "//" && !(pyStartsWith p "///")) = true
    · left; rw [if_pos h2]
    · right; rw [if_neg h2]
  rcases hk with hk | hk <;>
    rw [hk] <;>
    simp only [List.replicate, List.cons_append] <;>
    apply (pyStartsWith_slash_iff _).mpr <;>
    exact ⟨_, rfl⟩

theorem posixAbs_isAbs (cwd p : String) (h : posixIsAbs cwd = true) :
    posixIsAbs (posixAbs cwd p) = true := by
  rw [posixAbs, posixJoin]
  by_cases hb : pyStartsWith p "/" = true
  · rw [if_pos hb]
    exact posixNormpath_isAbs p hb
  · rw [if_neg hb]
    by_cases ha : cwd = "" ∨ pyEndsWith cwd "/" = true
    · rw [if_pos ha]
      rcases ha with ha | _
      · subst ha
        simp [posixIsAbs, pyStartsWith, List.isPrefixOf] at h
      · exact posixNormpath_isAbs _ (pyStartsWith_slash_append cwd p h)
    · rw [if_neg ha]
      apply posixNormpath_isAbs
      have : cwd ++ "/" ++ p = cwd ++ ("/" ++ p) := by
        rw [String.append_assoc]
      rw [this]
      exact pyStartsWith_slash_append cwd ("/" ++ p) h

theorem ovr_none_right {α : Type} (a : Option α) : ovr a none = a := by
  cases a <;> rfl

theorem ovr_getD_some {α : Type} (a : Option α) (p : α) (w : Option α) :
    ovr (some (a.getD p)) w = ovr a (some p) := by
  cases a <;> rfl

/-- Applying a mutation sequence to a state with an open session
updates exactly the declared-metadata fields, as described by the
`declared*`/`exposedOf`/`volumesOf` summaries of the sequence. -/
theorem applyMutations_fields (ms : List Mutation) (s : BuilderState)
    (h : s.container.isSome = true) :
    applyMutations ms s =
      { container := s.container
        buildtime_volumes := s.buildtime_volumes
        _workdir := ovr (declaredWorkdir ms) s._workdir
        _cmd := ovr (declaredCmd ms) s._cmd
        _entrypoint := ovr (declaredEntrypoint ms) s._entrypoint
        _user := ovr (declaredUser ms) s._user
        _expose := s._expose ++ exposedOf ms
        _volumes := s._volumes ++ volumesOf ms } := by
  induction ms generalizing s with
  | nil =>
    simp only [applyMutations, List.foldl_nil, declaredWorkdir, declaredCmd,
      declaredEntrypoint, declaredUser, exposedOf, volumesOf, List.filterMap_nil,
      ovr, List.append_nil]
  | cons m ms ih =>
    have hcne : ¬ s.container = none := by
      cases hc : s.container with
      | none => rw [hc] at h; simp at h
      | some c => simp
    have hstep : applyMutations (m :: ms) s = applyMutations ms (applyM s m) := by
      simp [applyMutations]
    rw [hstep]
    cases m with
    | workdir p =>
      have happ : applyM s (Mutation.workdir p) = { s with _workdir := some p } := by
        simp [applyM, mutate, workdir, hcne]
      rw [happ, ih { s with _workdir := some p } (by simpa using h)]
      simp only [declaredWorkdir, declaredCmd, declaredEntrypoint, declaredUser,
        exposedOf, volumesOf, List.filterMap_cons]
      rw [ovr_getD_some]
    | cmd c =>
      have happ : applyM s (Mutation.cmd c) = { s with _cmd := some (toArgv c) } := by
        simp [applyM, mutate, cmd, hcne]
      rw [happ, ih { s with _cmd := some (toArgv c) } (by simpa using h)]
      simp only [declaredWorkdir, declaredCmd, declaredEntrypoint, declaredUser,
        exposedOf, volumesOf, List.filterMap_cons]
      rw [ovr_getD_some]
    | entrypoint c =>
      have happ : applyM s (Mutation.entrypoint c) =
          { s with _entrypoint := some (toArgv c) } := by
        simp [applyM, mutate, entrypoint, hcne]
      rw [happ, ih { s with _entrypoint := some (toArgv c) } (by simpa using h)]
      simp only [declaredWorkdir, declaredCmd, declaredEntrypoint, declaredUser,
        exposedOf, volumesOf, List.filterMap_cons]
      rw [ovr_getD_some]
    | user n g =>
      have happ : applyM s (Mutation.user n g) =
          { s with _user := some (userString n g) } := by
        simp [applyM, mutate, user, hcne]
      rw [happ, ih { s with _user := some (userString n g) } (by simpa using h)]
      simp only [declaredWorkdir, declaredCmd, declaredEntrypoint, declaredUser,
        exposedOf, volumesOf, List.filterMap_cons]
      rw [ovr_getD_some]
    | expose d =>
      have happ : applyM s (Mutation.expose d) =
          { s with _expose := s._expose ++ [d] } := by
        simp [applyM, mutate, expose, hcne]
      rw [happ, ih { s with _expose := s._expose ++ [d] } (by simpa using h)]
      simp only [declaredWorkdir, declaredCmd, declaredEntrypoint, declaredUser,
        exposedOf, volumesOf, List.filterMap_cons]
      simp [List.append_assoc]
    | volume d =>
      have happ : applyM s (Mutation.volume d) =
          { s with _volumes := s._volumes ++ [d] } := by
        simp [applyM, mutate, volume, hcne]
      rw [happ, ih { s with _volumes := s._volumes ++ [d] } (by simpa using h)]
      simp only [declaredWorkdir, declaredCmd, declaredEntrypoint, declaredUser,
        exposedOf, volumesOf, List.filterMap_cons]
      simp [List.append_assoc]

theorem noLoneCR_tail (b : Nat) (l : List Nat)
    (h : noLoneCR (b :: l) = true) : noLoneCR l = true := by
  cases l with
  | nil => rfl
  | cons c r =>
    rw [noLoneCR, Bool.and_eq_true] at h
    exact h.2

/-- On input without lone CRs, `content.replace(b'\r\n', b'\n')`
removes exactly the CR bytes and keeps every other byte in order. -/
theorem pyReplaceCRLF_eq_filter :
    ∀ l : List Nat, noLoneCR l = true →
      pyReplaceCRLF l = l.filter (fun b => b ≠ 13) := by
  intro l
  induction l using pyReplaceCRLF.induct with
  | case1 => intro _; rfl
  | case2 rest ih =>
    intro h
    have h1 : noLoneCR (10 :: rest) = true := noLoneCR_tail _ _ h
    have h2 : noLoneCR rest = true := noLoneCR_tail _ _ h1
    rw [pyReplaceCRLF, ih h2]
    simp
  | case3 b rest hne ih =>
    intro h
    have hb : b ≠ 13 := by
      intro hb13
      subst hb13
      cases rest with
      | nil => rw [noLoneCR] at h; simp at h
      | cons c r =>
        have hc : ¬ c = 10 := by
          intro hc10
          subst hc10
          exact hne r rfl rfl
        rw [noLoneCR, Bool.and_eq_true] at h
        have := h.1
        simp [hc] at this
    have h2 : noLoneCR rest = true := noLoneCR_tail _ _ h
    rw [pyReplaceCRLF.eq_3 _ _ hne, ih h2]
    simp [hb]

theorem strData_append (a b : String) : (a ++ b).data = a.data ++ b.data := rfl

theorem str_ne_empty_of_data (s : String) (c : Char) (t : List Char)
    (h : s.data = c :: t) : s ≠ "" := by
  intro he
  subst he
  simp at h

theorem partitionColon_no_colon :
    ∀ a : List Char, a.contains ':' = false → partitionColon a = (a, none) := by
  intro a
  induction a with
  | nil => intro _; rfl
  | cons c a' ih =>
    intro h
    rw [List.contains_cons, Bool.or_eq_false_iff] at h
    have hc : ¬ c = ':' := by
      intro hc
      subst hc
      simp at h
    rw [partitionColon, if_neg hc, ih h.2]

theorem partitionColon_split :
    ∀ a : List Char, a.contains ':' = false → ∀ b : List Char,
      partitionColon (a ++ ':' :: b) = (a, some b) := by
  intro a
  induction a with
  | nil => intro _ b; simp [partitionColon]
  | cons c a' ih =>
    intro h b
    rw [List.contains_cons, Bool.or_eq_false_iff] at h
    have hc : ¬ c = ':' := by
      intro hc
      subst hc
      simp at h
    rw [List.cons_append, partitionColon, if_neg hc, ih h.2 b]

theorem pyPartition2_no_colon (r : String) (h : containsChar r ':' = false) :
    pyPartition2 r = (r, "") := by
  rw [pyPartition2, partitionColon_no_colon r.data h]

theorem pyPartition2_split (name tag : String)
    (hnc : containsChar name ':' = false) :
    pyPartition2 (name ++ ":" ++ tag) = (name, tag) := by
  have hd : (name ++ ":" ++ tag).data = name.data ++ ':' :: tag.data := by
    rw [strData_append, strData_append]
    rw [show (":" : String).data = [':'] from rfl]
    simp
  rw [pyPartition2, hd, partitionColon_split name.data hnc tag.data]

theorem commit_parse_embedded (name tag : String)
    (hnc : containsChar name ':' = false) (hn : name ≠ "") :
    commit_parse (some (name ++ ":" ++ tag)) none =
      Except.ok (some name, some tag) := by
  have hd : (name ++ ":" ++ tag).data = name.data ++ ':' :: tag.data := by
    rw [strData_append, strData_append]
    rw [show (":" : String).data = [':'] from rfl]
    simp
  have hne : name ++ ":" ++ tag ≠ "" := by
    intro he
    have := congrArg String.data he
    rw [hd] at this
    simp at this
  rw [commit_parse]
  simp only [if_pos hne, pyPartition2_split name tag hnc]
  rw [if_neg (by simp [hn]), if_neg (by simp [pyTruthy])]

theorem commit_parse_embedded_and_explicit (name tag x : String)
    (hnc : containsChar name ':' = false) (hn : name ≠ "") (ht : tag ≠ "")
    (hx : x ≠ "") :
    commit_parse (some (name ++ ":" ++ tag)) (some x) =
      Except.error "tag in repository and tag argument" := by
  have hd : (name ++ ":" ++ tag).data = name.data ++ ':' :: tag.data := by
    rw [strData_append, strData_append]
    rw [show (":" : String).data = [':'] from rfl]
    simp
  have hne : name ++ ":" ++ tag ≠ "" := by
    intro he
    have := congrArg String.data he
    rw [hd] at this
    simp at this
  rw [commit_parse]
  simp only [if_pos hne, pyPartition2_split name tag hnc]
  rw [if_neg (by simp [hn]), if_pos (by simp [pyTruthy, hx, ht])]

theorem commit_parse_bare_tag (tag : String) (ht : tag ≠ "") (t : Option String) :
    commit_parse (some (":" ++ tag)) t =
      Except.error "tag without repository" := by
  have hd : (":" ++ tag).data = ':' :: tag.data := by
    rw [strData_append]
    rw [show (":" : String).data = [':'] from rfl]
    simp
  have hne : ":" ++ tag ≠ "" := str_ne_empty_of_data _ ':' tag.data hd
  have hpart : pyPartition2 (":" ++ tag) = ("", tag) := by
    rw [pyPartition2, hd]
    rw [show partitionColon (':' :: tag.data) = ([], some tag.data) by
      rw [partitionColon]; simp]
  rw [commit_parse]
  simp only [if_pos hne, hpart]
  rw [if_pos (by exact ⟨ht, by trivial⟩)]

theorem commit_parse_no_colon (r : String) (hr : r ≠ "")
    (hrc : containsChar r ':' = false) (t : Option String) :
    commit_parse (some r) t = Except.ok (some r, some "") := by
  rw [commit_parse]
  simp only [if_pos hr, pyPartition2_no_colon r hrc]
  rw [if_neg (by simp), if_neg (by simp)]

theorem commit_open (s : BuilderState) (h : String) (hc : s.container = some h)
    (repository tag : Option String) :
    commit repository tag s =
      match commit_parse repository tag with
      | Except.error e => Except.error e
      | Except.ok (r, t) => Except.ok ⟨r, t, commit_changes s⟩ := by
  rw [commit]
  simp [hc]

/-! ## Claim C1 -/

/-- C1, counterexample.  The claim says commit emits exactly one
directive per *non-empty* scalar field.  After the mutation
`workdir('')` the workdir field holds the empty string — an empty
scalar field — yet `commit` still emits a `WORKDIR ""` directive,
because the source tests `is not None`, not emptiness. -/
theorem commit_empty_workdir_cex :
    commit_changes (applyMutations [Mutation.workdir ""] (openState "c")) =
      ["WORKDIR \"\""] ∧
    specNonEmptyChanges (applyMutations [Mutation.workdir ""] (openState "c")) = [] ∧
    (["WORKDIR \"\""] : List String) ≠ [] := by
  decide

/-- C1, amended.  For every sequence of metadata mutations performed
inside an open session starting from fresh declared state, `commit`
builds exactly one directive per scalar field the sequence *declares*
(sets at least once, even to an empty value) — `CMD`/`ENTRYPOINT` as
JSON-encoded argument arrays, `USER` raw, `WORKDIR` JSON-encoded — plus
one `EXPOSE` line per declared port and one `VOLUME` line per declared
volume, in declaration order; with no mutations the directive list is
empty (`specChangesOf [] = []`). -/
theorem commit_builds_declared_changes (h : String) (ms : List Mutation) :
    commit none none (applyMutations ms (openState h)) =
      Except.ok ⟨none, none, specChangesOf ms⟩ := by
  have hf := applyMutations_fields ms (openState h) (by rfl)
  rw [hf]
  simp only [openState, freshState, ovr_none_right, List.nil_append]
  rfl

/-! ## Claim C2 -/

/-- C2, counterexample.  When the line `ab\n` arrives split as the two
chunks `a` and `b\n`, `communicate` emits the prefix twice (once per
chunk), so the output differs from the claimed prefix-per-line
reconstruction of the concatenated stream. -/
theorem communicate_split_line_cex :
    communicate [32] [[97], [98, 10]] ≠ claimedOutput [32] [97, 98, 10] := by
  rw [communicate]
  simp only [List.map_cons, List.map_nil, writeChunk_eq_claimedOutput]
  decide

/-- C2, amended.  Draining writes, for each chunk separately, the
chunk's lines each preceded by one copy of the prefix (a trailing
partial line of a chunk is prefixed once); consequently a line spanning
a chunk boundary receives an extra prefix at each boundary, and the
claimed split-independent output is obtained exactly when no line spans
a chunk boundary, i.e. when every chunk before the last ends with a
newline. -/
theorem communicate_prefixes_per_chunk (lp : List Nat) (chunks : List (List Nat)) :
    communicate lp chunks = (chunks.map (claimedOutput lp)).flatten ∧
    ((∀ c ∈ chunks.dropLast, c ≠ [] → c.getLast? = some 10) →
      communicate lp chunks = claimedOutput lp chunks.flatten) := by
  have h1 : communicate lp chunks = (chunks.map (claimedOutput lp)).flatten := by
    rw [communicate, funext (writeChunk_eq_claimedOutput lp)]
  exact ⟨h1, fun h => by rw [h1, claimedOutput_flatten lp chunks h]⟩

/-- C2, witness for the amended theorem at a concrete stream: chunk
`a\n` then trailing partial line `b`. -/
theorem communicate_prefixes_per_chunk_w :
    communicate [32] [[97, 10], [98]] =
      claimedOutput [32] ([[97, 10], [98]] : List (List Nat)).flatten :=
  (communicate_prefixes_per_chunk [32] [[97, 10], [98]]).2 (by decide)

/-! ## Claim C3 -/

/-- C3, code bug witness.  Open a session, declare `volume('/data')`,
close the session, open a fresh one: the `finally` block of `new()`
resets every declared field except `_volumes` (missing from its
`global` list), so a commit in the new session with no mutations still
emits `VOLUME /data` instead of the empty directive list the claim
requires. -/
theorem volumes_survive_session_close :
    (new_exit (applyM (openState "c1") (Mutation.volume "/data")))._volumes =
      ["/data"] ∧
    new_enter "c2" "img" (new_exit (applyM (openState "c1") (Mutation.volume "/data"))) =
      Except.ok { openState "c2" with _volumes := ["/data"] } ∧
    commit none none { openState "c2" with _volumes := ["/data"] } =
      Except.ok ⟨none, none, ["VOLUME /data"]⟩ ∧
    (["VOLUME /data"] : List String) ≠ [] := by
  decide

/-! ## Claim C4 -/

/-- C4.  For a colon-free non-empty repository name and a non-empty
tag: committing with `repository="name:tag"` and no tag argument passes
`repository="name"`, `tag="tag"` to the remote commit call; adding any
non-empty explicit tag argument raises the `ValueError`
`'tag in repository and tag argument'`; a bare `":tag"` raises the
`ValueError` `'tag without repository'`. -/
theorem commit_repository_tag_parsing (s : BuilderState) (h : String)
    (hc : s.container = some h) (name tag : String) (hn : name ≠ "")
    (hnc : containsChar name ':' = false) (ht : tag ≠ "") :
    commit (some (name ++ ":" ++ tag)) none s =
      Except.ok ⟨some name, some tag, commit_changes s⟩ ∧
    (∀ x : String, x ≠ "" →
      commit (some (name ++ ":" ++ tag)) (some x) s =
        Except.error "tag in repository and tag argument") ∧
    commit (some (":" ++ tag)) none s =
      Except.error "tag without repository" := by
  refine ⟨?_, ?_, ?_⟩
  · rw [commit_open s h hc, commit_parse_embedded name tag hnc hn]
  · intro x hx
    rw [commit_open s h hc,
      commit_parse_embedded_and_explicit name tag x hnc hn ht hx]
  · rw [commit_open s h hc, commit_parse_bare_tag tag ht none]

/-- C4, witness at `repository="name:tag"` in an open fresh session. -/
theorem commit_repository_tag_parsing_w :
    commit (some "name:tag") none (openState "c") =
      Except.ok ⟨some "name", some "tag", []⟩ := by
  have h := (commit_repository_tag_parsing (openState "c") "c" rfl "name" "tag"
    (by decide) (by decide) (by decide)).1
  rw [show ("name" ++ ":" ++ "tag" : String) = "name:tag" by decide] at h
  rw [h]
  decide

/-! ## Claim C5 -/

/-- C5.  Inside an open session, a `run` whose remote exit status is
non-zero makes the script process terminate with the default exit code
1 (non-zero) after printing to stderr a diagnostic that contains the
status code; a zero remote status returns normally without
terminating. -/
theorem run_nonzero_status_exits (s : BuilderState) (h : String)
    (hc : s.container = some h) (c : PyCmd) :
    (∀ res : Int, res ≠ 0 →
      run c res s =
        Except.ok (RunOutcome.exit 1 ("ERROR exit code " ++ toString res)) ∧
      (∃ pre post : String,
        "ERROR exit code " ++ toString res = pre ++ toString res ++ post) ∧
      (1 : Int) ≠ 0) ∧
    run c 0 s = Except.ok RunOutcome.normal := by
  constructor
  · intro res hres
    refine ⟨?_, ⟨"ERROR exit code ", "", by simp⟩, by decide⟩
    simp [run, hc, hres, error]
  · simp [run, hc]

/-- C5, witness: remote status 2 in an open fresh session. -/
theorem run_nonzero_status_exits_w :
    run (PyCmd.str "false") 2 (openState "c") =
      Except.ok (RunOutcome.exit 1 ("ERROR exit code " ++ toString (2 : Int))) :=
  ((run_nonzero_status_exits (openState "c") "c" rfl (PyCmd.str "false")).1 2
    (by decide)).1

/-! ## Claim C6 -/

/-- C6 (implicit).  When the repository string contains no colon and a
non-empty explicit tag argument is given, `commit` silently discards
the caller's tag: the tag passed to the remote commit call is the empty
string extracted from the repository, not the argument, and no error is
raised. -/
theorem commit_discards_explicit_tag (s : BuilderState) (h : String)
    (hc : s.container = some h) (r t : String) (hr : r ≠ "")
    (hrc : containsChar r ':' = false) (ht : t ≠ "") :
    commit (some r) (some t) s =
      Except.ok ⟨some r, some "", commit_changes s⟩ ∧
    (some "" : Option String) ≠ some t := by
  refine ⟨?_, by simpa using (ht ∘ Eq.symm)⟩
  rw [commit_open s h hc, commit_parse_no_colon r hr hrc (some t)]

/-- C6, witness: `commit("myrepo", tag="x")` in an open fresh session
passes tag `""`, discarding `"x"`. -/
theorem commit_discards_explicit_tag_w :
    commit (some "myrepo") (some "x") (openState "c") =
      Except.ok ⟨some "myrepo", some "", []⟩ := by
  have h := (commit_discards_explicit_tag (openState "c") "c" rfl "myrepo" "x"
    (by decide) (by decide) (by decide)).1
  rw [h]
  decide

/-! ## Claim C7 -/

/-- C7, counterexample.  The claim says every relative host path is
canonicalized to absolute form, but a bare relative name with no `.` /
`..` prefix and no separator — here `"data"` — is stored unchanged and
is still not absolute (the source only canonicalizes dotted or
separator-containing relative paths, leaving bare names to act as
docker named volumes). -/
theorem buildtime_volume_bare_name_cex :
    buildtime_volume "/cwd" "data" "/x" "rw" freshState =
      Except.ok { freshState with buildtime_volumes := [("data", ⟨"/x", "rw"⟩)] } ∧
    posixIsAbs "data" = false ∧
    posixIsAbs "/cwd" = true := by
  decide

/-- C7, amended.  With no session open: an absolute host path is stored
unchanged; a relative host path that starts with `'.'` or `'..'` or
contains a separator is canonicalized with `path.abs` and the stored
key is absolute; any other relative host path (a bare name) is stored
unchanged; in every case the stored bind descriptor records the given
container path and access mode. -/
theorem buildtime_volume_canonicalization (cwd hp cp md : String)
    (s : BuilderState) (hc : s.container = none) (hcwd : posixIsAbs cwd = true) :
    (posixIsAbs hp = true →
      buildtime_volume cwd hp cp md s =
        Except.ok { s with
          buildtime_volumes := pyDictSet s.buildtime_volumes hp ⟨cp, md⟩ }) ∧
    (posixIsAbs hp = false →
      (pyStartsWith hp "." = true ∨ pyStartsWith hp ".." = true ∨
        containsChar hp '/' = true) →
      buildtime_volume cwd hp cp md s =
        Except.ok { s with
          buildtime_volumes :=
            pyDictSet s.buildtime_volumes (posixAbs cwd hp) ⟨cp, md⟩ } ∧
      posixIsAbs (posixAbs cwd hp) = true) ∧
    (posixIsAbs hp = false →
      pyStartsWith hp "." = false → pyStartsWith hp ".." = false →
      containsChar hp '/' = false →
      buildtime_volume cwd hp cp md s =
        Except.ok { s with
          buildtime_volumes := pyDictSet s.buildtime_volumes hp ⟨cp, md⟩ }) := by
  have hns : s.container.isSome = false := by rw [hc]; rfl
  refine ⟨?_, ?_, ?_⟩
  · intro habs
    rw [buildtime_volume]
    simp only [hns, Bool.false_eq_true, if_false]
    rw [if_neg (by simp [habs])]
  · intro hrel hdot
    constructor
    · rw [buildtime_volume]
      simp only [hns, Bool.false_eq_true, if_false]
      rw [if_pos (by simp [hrel, hdot])]
    · exact posixAbs_isAbs cwd hp hcwd
  · intro hrel h1 h2 h3
    rw [buildtime_volume]
    simp only [hns, Bool.false_eq_true, if_false]
    rw [if_neg (by simp [h1, h2, h3])]

/-- C7, witness for the amended theorem: `./rel` is canonicalized
against cwd `/cwd` to the absolute key `/cwd/rel`. -/
theorem buildtime_volume_canonicalization_w :
    buildtime_volume "/cwd" "./rel" "/x" "rw" freshState =
      Except.ok { freshState with
        buildtime_volumes := [("/cwd/rel", ⟨"/x", "rw"⟩)] } := by
  have h := ((buildtime_volume_canonicalization "/cwd" "./rel" "/x" "rw"
    freshState rfl (by decide)).2.1 (by decide) (by decide)).1
  rw [h]
  decide

/-! ## Claim C8 -/

/-- C8.  Opening a session while one is active raises the usage error
`'new() can not be nested'`; no updated state is produced, so the
existing session's container handle, declared metadata and buildtime
volume mapping all stand unchanged (the source raises before its first
assignment). -/
theorem new_nested_fails (s : BuilderState) (h : String)
    (hc : s.container = some h) (handle image : String) :
    new_enter handle image s = Except.error "new() can not be nested" ∧
    (∀ s' : BuilderState, new_enter handle image s ≠ Except.ok s') := by
  have he : new_enter handle image s = Except.error "new() can not be nested" := by
    simp [new_enter, hc]
  refine ⟨he, fun s' hok => ?_⟩
  rw [he] at hok
  cases hok

/-- C8, witness: nested open over a session on container `c1`. -/
theorem new_nested_fails_w :
    new_enter "c2" "img" (openState "c1") =
      Except.error "new() can not be nested" :=
  (new_nested_fails (openState "c1") "c1" rfl "c2" "img").1

/-! ## Claim C9 -/

/-- C9.  With no open session, every metadata mutation and `run` raise
a usage error (each raises before any assignment, so the declared state
is untouched; `volume` reuses the message of `expose`). -/
theorem mutations_require_session (s : BuilderState) (hc : s.container = none)
    (p : String) (c : PyCmd) (n : String) (g : Option String) (d v : String)
    (res : Int) :
    workdir p s =
      Except.error "workdir() can not be used outside of a build context" ∧
    cmd c s = Except.error "cmd() can not be used outside of a build context" ∧
    entrypoint c s =
      Except.error "entrypoint() can not be used outside of a build context" ∧
    user n g s =
      Except.error "user() can not be used outside of a build context" ∧
    expose d s =
      Except.error "expose() can not be used outside of a build context" ∧
    volume v s =
      Except.error "expose() can not be used outside of a build context" ∧
    run c res s = Except.error "no current container" := by
  refine ⟨?_, ?_, ?_, ?_, ?_, ?_, ?_⟩ <;>
    simp [workdir, cmd, entrypoint, user, expose, volume, run, hc]

/-- C9, witness: `workdir` on the fresh (closed) state. -/
theorem mutations_require_session_w :
    workdir "/w" freshState =
      Except.error "workdir() can not be used outside of a build context" :=
  (mutations_require_session freshState rfl "/w" (PyCmd.str "x") "u" none
    "80" "/v" 0).1

/-! ## Claim C10 -/

/-- C10.  For a regular file whose line endings are all LF or CRLF (no
lone CR), `copy` with CRLF normalization synthesizes an archive entry
whose bytes are the original with exactly the CR of each CRLF removed —
hence only LF line endings and otherwise byte-identical; requesting
normalization when the source is not a regular file raises
`RuntimeError` while building the archive, before any upload (for
either value of the `put_archive` outcome). -/
theorem copy_crlf_normalization (src : SrcFile) (hfile : src.isfile = true)
    (hmix : noLoneCR src.content = true) (s : BuilderState) (dst : String) :
    copyArchiveEntry src true =
      Except.ok (some (src.content.filter (fun b => b ≠ 13))) ∧
    (∀ b ∈ src.content.filter (fun b => b ≠ 13), b ≠ 13) ∧
    (∀ src2 : SrcFile, src2.isfile = false → ∀ ok : Bool,
      copy src2 dst true ok s =
        Except.error ("crlf_to_lf=True, but \"" ++ src2.path ++ "\" is not a file")) := by
  refine ⟨?_, ?_, ?_⟩
  · rw [copyArchiveEntry]
    rw [if_neg (by simp [hfile]), if_pos rfl]
    rw [pyReplaceCRLF_eq_filter src.content hmix]
  · intro b hb
    simp [List.mem_filter] at hb
    exact hb.2
  · intro src2 h2 ok
    rw [copy]
    simp [copyArchiveEntry, h2]

/-- C10, witness: the file `a\r\nb\nc` genuinely mixes CRLF and LF and
normalizes to `a\nb\nc`. -/
theorem copy_crlf_normalization_w :
    copyArchiveEntry ⟨"f.txt", true, [97, 13, 10, 98, 10, 99]⟩ true =
      Except.ok (some [97, 10, 98, 10, 99]) := by
  have h := (copy_crlf_normalization ⟨"f.txt", true, [97, 13, 10, 98, 10, 99]⟩
    rfl (by decide) freshState "dst").1
  rw [h]
  decide

end ImageBuilder
